import Mathlib

/-!
Verification of the chromxify HTTP-to-browser proxy core (src/proxy.ts and
src/payload.js): header filtering, URL parsing and scheme normalization, the
host-to-target registry with lazy tab creation and session attachment, the
in-page fetch payload rendering, and the per-request handler.

Strings are modelled as Lean `String`s. JavaScript's first-occurrence
`String.prototype.replace` (with a string pattern, including the `$`-pattern
substitutions in the replacement) is modelled explicitly on character lists.
Thrown JavaScript errors are modelled by their `String(err)` form carried in
`Except`. The remote-debugging collaborator (tab creation, session
attachment, expression evaluation) is an explicit environment record, and
the protocol calls a computation issues are collected in an event trace.
-/

namespace Chromxify

/-- Bool test that `p` is a prefix of `s` (character-list level). -/
def isPre : List Char → List Char → Bool
  | [], _ => true
  | _ :: _, [] => false
  | a :: as, b :: bs => a == b && isPre as bs

theorem isPre_append_self : ∀ (p b : List Char), isPre p (p ++ b) = true := by
  intro p
  induction p with
  | nil => intro b; rfl
  | cons a as ih => intro b; simp [isPre, ih]

theorem isPre_refl (l : List Char) : isPre l l = true := by
  have h := isPre_append_self l []
  simpa using h

theorem isPre_length_le : ∀ {p s : List Char}, isPre p s = true → p.length ≤ s.length := by
  intro p
  induction p with
  | nil => intro s _; simp
  | cons a as ih =>
    intro s h
    cases s with
    | nil => simp [isPre] at h
    | cons b bs =>
      simp only [isPre, Bool.and_eq_true] at h
      have := ih h.2
      simp [List.length_cons]
      omega

theorem isPre_eq_of_length : ∀ {p s : List Char}, isPre p s = true →
    p.length = s.length → p = s := by
  intro p
  induction p with
  | nil =>
    intro s _ hl
    cases s with
    | nil => rfl
    | cons b bs => simp at hl
  | cons a as ih =>
    intro s h hl
    cases s with
    | nil => simp [isPre] at h
    | cons b bs =>
      simp only [isPre, Bool.and_eq_true, beq_iff_eq] at h
      simp only [List.length_cons, Nat.succ.injEq] at hl
      exact h.1 ▸ congrArg (a :: ·) (ih h.2 hl)

theorem isPre_split : ∀ (x : List Char) {p : List Char} (y : List Char),
    isPre p (x ++ y) = true →
    isPre p x = true ∨ (isPre x p = true ∧ isPre (p.drop x.length) y = true) := by
  intro x
  induction x with
  | nil =>
    intro p y h
    right
    exact ⟨rfl, by simpa using h⟩
  | cons c cs ih =>
    intro p y h
    cases p with
    | nil => left; rfl
    | cons a as =>
      simp only [List.cons_append, isPre, Bool.and_eq_true, beq_iff_eq] at h
      rcases ih y h.2 with h1 | ⟨h2, h3⟩
      · left; simp [isPre, h.1, h1]
      · right
        refine ⟨by simp [isPre, h.1.symm, h2], ?_⟩
        simpa [List.drop_succ_cons] using h3

/-- Bool test that `p` occurs as a contiguous run somewhere in `s`. -/
def containsSeq (p : List Char) : List Char → Bool
  | [] => isPre p []
  | c :: cs => isPre p (c :: cs) || containsSeq p cs

/-- No prefix-match for `p` could start inside `s` even if `s` were extended
to the right: every candidate start mismatches within `s` itself. -/
def isPreCompat : List Char → List Char → Bool
  | [], _ => true
  | _ :: _, [] => true
  | a :: as, b :: bs => a == b && isPreCompat as bs

theorem isPreCompat_false_no_pre : ∀ {p s : List Char}, isPreCompat p s = false →
    ∀ y, isPre p (s ++ y) = false := by
  intro p
  induction p with
  | nil => intro s h; simp [isPreCompat] at h
  | cons a as ih =>
    intro s h y
    cases s with
    | nil => simp [isPreCompat] at h
    | cons b bs =>
      simp only [isPreCompat, Bool.and_eq_false_iff] at h
      simp only [List.cons_append, isPre, Bool.and_eq_false_iff]
      rcases h with h | h
      · exact Or.inl h
      · exact Or.inr (ih h y)

def dollarChar : Char := Char.ofNat 36
def ampChar : Char := Char.ofNat 38
def backquoteChar : Char := Char.ofNat 96
def quoteChar : Char := Char.ofNat 39

/-- The `GetSubstitution` step of JS `String.prototype.replace` for a string
pattern (no capture groups): `$$`, `$&` (the match), a dollar followed by a
backquote (the part before), and a dollar followed by a quote (the part
after) are interpreted; everything else is literal. -/
def getSubstitution (pat before after : List Char) : List Char → List Char
  | [] => []
  | c :: cs =>
    if c = dollarChar then
      match cs with
      | [] => [c]
      | d :: ds =>
        if d = dollarChar then dollarChar :: getSubstitution pat before after ds
        else if d = ampChar then pat ++ getSubstitution pat before after ds
        else if d = backquoteChar then before ++ getSubstitution pat before after ds
        else if d = quoteChar then after ++ getSubstitution pat before after ds
        else c :: getSubstitution pat before after (d :: ds)
    else c :: getSubstitution pat before after cs

theorem getSubstitution_no_dollar : ∀ {rep : List Char}, dollarChar ∉ rep →
    ∀ pat before after, getSubstitution pat before after rep = rep := by
  intro rep
  induction rep with
  | nil => intro _ pat b a; rfl
  | cons c cs ih =>
    intro h pat b a
    have hc : c ≠ dollarChar := fun he => h (he ▸ List.mem_cons_self c cs)
    have hcs : dollarChar ∉ cs := fun hm => h (List.mem_cons_of_mem c hm)
    rw [getSubstitution.eq_def]
    simp [hc, ih hcs]

/-- Scan of JS `replace`: walk `s` keeping the reversed prefix already passed
in `acc`; at the first position where `pat` matches, emit the substitution of
`rep` followed by the rest; if no position matches, return `s` unchanged. -/
def rfAux (pat rep : List Char) : List Char → List Char → List Char
  | acc, [] =>
    if isPre pat [] then
      getSubstitution pat acc.reverse (List.drop pat.length []) rep ++ List.drop pat.length []
    else []
  | acc, c :: cs =>
    if isPre pat (c :: cs) then
      getSubstitution pat acc.reverse ((c :: cs).drop pat.length) rep ++ (c :: cs).drop pat.length
    else c :: rfAux pat rep (c :: acc) cs

/-- JS `s.replace(pat, rep)` with a string pattern: first occurrence only. -/
def replaceFirst (s pat rep : List Char) : List Char := rfAux pat rep [] s

def replaceFirstStr (s pat rep : String) : String := ⟨replaceFirst s.data pat.data rep.data⟩

/-- No occurrence of `pat` starts at any position of `x`, viewed as a prefix
of the combined list `x ++ y`. -/
def noStartIn (pat : List Char) : List Char → List Char → Prop
  | [], _ => True
  | c :: cs, y => isPre pat (c :: (cs ++ y)) = false ∧ noStartIn pat cs y

/-- Decidable sufficient condition for `noStartIn pat x y` independent of `y`:
each candidate start in `x` mismatches within `x` itself. -/
def noStartInB (pat : List Char) : List Char → Bool
  | [] => true
  | c :: cs => !isPreCompat pat (c :: cs) && noStartInB pat cs

theorem noStartInB_sound : ∀ {x pat : List Char}, noStartInB pat x = true →
    ∀ y, noStartIn pat x y := by
  intro x
  induction x with
  | nil => intro pat _ y; trivial
  | cons c cs ih =>
    intro pat h y
    simp only [noStartInB, Bool.and_eq_true, Bool.not_eq_true'] at h
    exact ⟨by simpa using isPreCompat_false_no_pre h.1 y, ih h.2 y⟩

theorem noStartIn_append {pat : List Char} : ∀ (x : List Char) {y z : List Char},
    noStartIn pat x (y ++ z) → noStartIn pat y z → noStartIn pat (x ++ y) z := by
  intro x
  induction x with
  | nil => intro y z _ hy; simpa using hy
  | cons c cs ih =>
    intro y z hx hy
    obtain ⟨h1, h2⟩ := hx
    exact ⟨by simpa [List.append_assoc] using h1, ih h2 hy⟩

theorem noStartIn_of_not_contains {pat y : List Char}
    (hk : ∀ k, k < pat.length → 0 < k → isPre (pat.drop k) y = false) :
    ∀ {x : List Char}, containsSeq pat x = false → noStartIn pat x y := by
  intro x
  induction x with
  | nil => intro _; trivial
  | cons c cs ih =>
    intro h
    simp only [containsSeq, Bool.or_eq_false_iff] at h
    refine ⟨?_, ih h.2⟩
    cases hI : isPre pat (c :: (cs ++ y)) with
    | false => rfl
    | true =>
      exfalso
      have hI' : isPre pat ((c :: cs) ++ y) = true := by simpa using hI
      rcases isPre_split (c :: cs) y hI' with h1 | ⟨h2, h3⟩
      · rw [h.1] at h1; exact Bool.false_ne_true h1
      · have hlen : (c :: cs).length ≤ pat.length := isPre_length_le h2
        rcases Nat.lt_or_ge (c :: cs).length pat.length with hlt | hge
        · have := hk (c :: cs).length hlt (by simp)
          rw [this] at h3; exact Bool.false_ne_true h3
        · have heq : (c :: cs).length = pat.length := Nat.le_antisymm hlen hge
          have : (c :: cs) = pat := isPre_eq_of_length h2 heq
          have : isPre pat (c :: cs) = true := this ▸ isPre_refl pat
          rw [h.1] at this; exact Bool.false_ne_true this

theorem rfAux_skip {pat rep : List Char} : ∀ (x : List Char) {y : List Char} (acc),
    noStartIn pat x y →
    rfAux pat rep acc (x ++ y) = x ++ rfAux pat rep (x.reverse ++ acc) y := by
  intro x
  induction x with
  | nil => intro y acc _; simp
  | cons c cs ih =>
    intro y acc h
    obtain ⟨h1, h2⟩ := h
    simp only [List.cons_append, rfAux, List.append_eq, h1, Bool.false_eq_true, if_false]
    rw [ih (c :: acc) h2]
    simp [List.append_assoc]

theorem rfAux_match {pat : List Char} (hne : pat ≠ []) (rep acc b : List Char) :
    rfAux pat rep acc (pat ++ b) = getSubstitution pat acc.reverse b rep ++ b := by
  cases hp : pat with
  | nil => exact absurd hp hne
  | cons p ps =>
    have hpre : isPre (p :: ps) ((p :: ps) ++ b) = true := isPre_append_self (p :: ps) b
    simp only [List.cons_append] at hpre ⊢
    simp only [rfAux, hpre, if_true]
    have hdrop : ((p :: ps) ++ b).drop (p :: ps).length = b := List.drop_left (p :: ps) b
    simp only [List.cons_append] at hdrop
    rw [hdrop]

/-- JS first-occurrence replace at a designated slot: if no occurrence of
`pat` starts before the slot, the first occurrence is the slot. -/
theorem replaceFirst_slot {pat : List Char} (hne : pat ≠ []) {x y : List Char} (rep : List Char)
    (h : noStartIn pat x (pat ++ y)) :
    replaceFirst (x ++ (pat ++ y)) pat rep = x ++ (getSubstitution pat x y rep ++ y) := by
  unfold replaceFirst
  rw [rfAux_skip x [] h, rfAux_match hne]
  simp

theorem replaceFirst_slot_clean {pat : List Char} (hne : pat ≠ []) {x y rep : List Char}
    (h : noStartIn pat x (pat ++ y)) (hrep : dollarChar ∉ rep) :
    replaceFirst (x ++ (pat ++ y)) pat rep = x ++ (rep ++ y) := by
  rw [replaceFirst_slot hne rep h, getSubstitution_no_dollar hrep]

/-! ## The in-page fetch payload (src/payload.js) -/

/-- The exact content of src/payload.js, read into `PAYLOAD` at startup. -/
def PAYLOAD : String :=
  "fetch(\x27\x7b\x7bURL\x7d\x7d\x27, JSON.parse(\x27\x7b\x7bOPTIONS_JSON\x7d\x7d\x27)).then(async (response) => \x7b\n    const \x7b status, statusText, headers \x7d = response;\n    const body = await response.bytes().then(Object.values);\n    return \x7b status, statusText, headers: Object.fromEntries([...headers.entries()]), body \x7d;\n\x7d);\n"

/-- The template's URL substitution marker, `{{URL}}`. -/
def urlMarker : String := "\x7b\x7bURL\x7d\x7d"

/-- The template's options substitution marker, `{{OPTIONS_JSON}}`. -/
def optionsMarker : String := "\x7b\x7bOPTIONS_JSON\x7d\x7d"

/-- The template text before the `{{URL}}` marker. -/
def payloadPre : String := "fetch(\x27"

/-- The template text between the two markers. -/
def payloadMid : String := "\x27, JSON.parse(\x27"

/-- The template text after the `{{OPTIONS_JSON}}` marker. -/
def payloadPost : String :=
  "\x27)).then(async (response) => \x7b\n    const \x7b status, statusText, headers \x7d = response;\n    const body = await response.bytes().then(Object.values);\n    return \x7b status, statusText, headers: Object.fromEntries([...headers.entries()]), body \x7d;\n\x7d);\n"

set_option maxRecDepth 40000 in
/-- The payload template is the three fixed pieces around one occurrence of
each marker. -/
theorem payload_decomposition :
    PAYLOAD.data =
      payloadPre.data ++ (urlMarker.data ++ (payloadMid.data ++
        (optionsMarker.data ++ payloadPost.data))) := by decide

/-! ## Header filtering (src/proxy.ts, `filterHeaders`) -/

/-- A JS header value as the proxy listener delivers it: a string, an array
of strings, or `undefined`. -/
inductive HVal where
  | str (s : String)
  | list (l : List String)
  | undef
deriving DecidableEq

/-- `typeof value === "string"`. -/
def isStringVal : HVal → Bool
  | .str _ => true
  | _ => false

/-- JS `s.startsWith(p)`, modelled at the character-list level. -/
def strStartsWith (s p : String) : Bool := isPre p.data s.data

/-- ASCII lowercasing, one character of JS `toLowerCase` (header names are
ASCII). -/
def charToLower (c : Char) : Char :=
  if 65 ≤ c.toNat ∧ c.toNat ≤ 90 then Char.ofNat (c.toNat + 32) else c

/-- JS `s.toLowerCase()` for ASCII strings. -/
def strToLower (s : String) : String := ⟨s.data.map charToLower⟩

/-- The fixed deny-list `IGNORED_HEADERS` of src/proxy.ts. -/
def IGNORED_HEADERS : List String :=
  ["accept-charset", "accept-encoding", "access-control-request-headers",
   "access-control-request-method", "connection", "content-length", "cookie",
   "date", "dnt", "expect", "host", "keep-alive", "origin",
   "permissions-policy", "referer", "te", "trailer", "transfer-encoding",
   "upgrade", "via"]

/-- The fixed deny-prefixes `IGNORED_HEADER_PREFIXES` of src/proxy.ts. -/
def IGNORED_HEADER_PREFIXES : List String := ["proxy-", "sec-"]

/-- src/proxy.ts `filterHeaders`: keep an entry when its value is a string,
its name is not in the deny-list, and its name starts with no deny-prefix.
A header object is modelled as its `Object.entries` list (keys distinct);
`Object.fromEntries` of the filtered entries is the filtered list itself. -/
def filterHeaders (headers : List (String × HVal)) : List (String × HVal) :=
  headers.filter fun e =>
    isStringVal e.2 && !(IGNORED_HEADERS.contains e.1) &&
      !(IGNORED_HEADER_PREFIXES.any fun p => strStartsWith e.1 p)

/-- Modelled from the spec: the spec sentence's reading of `filterHeaders`,
which matches an entry's LOWERCASED name against the deny-list and the
deny-prefixes. Stated for comparison against `filterHeaders` above. -/
def filterHeadersSpecLower (headers : List (String × HVal)) : List (String × HVal) :=
  headers.filter fun e =>
    isStringVal e.2 && !(IGNORED_HEADERS.contains (strToLower e.1)) &&
      !(IGNORED_HEADER_PREFIXES.any fun p => strStartsWith (strToLower e.1) p)

/-! ## URLs

WHATWG `URL.parse` restricted to the proxy's inputs: absolute `http://` or
`https://` URLs written `scheme://host{/rest}`, where `host` is the authority
(including any port) and `rest` the serialized path-plus-query. A URL with no
path serializes with the canonical trailing `/`, as the real parser does; a
string with neither scheme, or with an empty host, parses to `none` (the real
`URL.parse` returns `null`). -/

structure UrlModel where
  scheme : String
  host : String
  rest : String
deriving DecidableEq

/-- `url.href`: the serialized URL. -/
def UrlModel.href (u : UrlModel) : String := u.scheme ++ "://" ++ u.host ++ u.rest

def parseAfterScheme (scheme : String) (rest : List Char) : Option UrlModel :=
  let host := rest.takeWhile fun c => c != '/'
  let path := rest.dropWhile fun c => c != '/'
  if host.isEmpty then none
  else some { scheme := scheme, host := ⟨host⟩, rest := if path.isEmpty then "/" else ⟨path⟩ }

/-- src/proxy.ts `parseURL`, for the http(s) subset: `URL.parse(url)`, with
`null` (modelled `none`) signalling the `Failed to parse url` error. -/
def parseURL (s : String) : Option UrlModel :=
  if isPre "http://".data s.data then parseAfterScheme "http" (s.data.drop 7)
  else if isPre "https://".data s.data then parseAfterScheme "https" (s.data.drop 8)
  else none

/-- `url.protocol = "https://"` (src/proxy.ts proxyHandler): the WHATWG
protocol setter takes the scheme part of the assigned string, so the URL's
scheme becomes `https` and nothing else changes. -/
def setProtocolHttps (u : UrlModel) : UrlModel := { u with scheme := "https" }

/-! ## JSON.stringify for the fetch options record -/

def hexDigit (n : Nat) : String :=
  String.singleton (if n < 10 then Char.ofNat (48 + n) else Char.ofNat (87 + n))

/-- One character of JSON.stringify's string quoting. -/
def escapeJsonChar (c : Char) : String :=
  if c = '"' then "\\\"" else if c = '\\' then "\\\\"
  else if c = Char.ofNat 8 then "\\b"
  else if c = Char.ofNat 9 then "\\t"
  else if c = Char.ofNat 10 then "\\n"
  else if c = Char.ofNat 12 then "\\f"
  else if c = Char.ofNat 13 then "\\r"
  else if c.toNat < 32 then "\\u00" ++ hexDigit (c.toNat / 16) ++ hexDigit (c.toNat % 16)
  else String.singleton c

def jsonQuote (s : String) : String :=
  "\"" ++ String.join (s.data.map escapeJsonChar) ++ "\""

/-- JSON.stringify of one header value; `undefined` values make
JSON.stringify skip the key. -/
def encodeHVal : HVal → Option String
  | .str s => some (jsonQuote s)
  | .list l => some ("[" ++ String.intercalate "," (l.map jsonQuote) ++ "]")
  | .undef => none

def encodeHeaders (hs : List (String × HVal)) : String :=
  "\x7b" ++
    String.intercalate ","
      (hs.filterMap fun e => (encodeHVal e.2).map fun v => jsonQuote e.1 ++ ":" ++ v) ++
  "\x7d"

/-- The fetch options record built by `debuggerFetch`
(src/proxy.ts: `{ method, credentials: "include", headers: headers || undefined,
body: body || undefined }`). -/
structure FetchOptions where
  method : String
  credentials : String
  headers : Option (List (String × HVal))
  body : Option String
deriving DecidableEq

/-- src/proxy.ts debuggerFetch's options construction. `headers || undefined`
maps JS `null` to `undefined` (an object, even empty, is truthy and kept);
`body || undefined` additionally coerces the empty string, which is falsy,
to `undefined`. -/
def mkFetchOptions (method : String) (headers : Option (List (String × HVal)))
    (body : Option String) : FetchOptions :=
  { method := method, credentials := "include", headers := headers,
    body := match body with
            | some s => if s = "" then none else some s
            | none => none }

/-- JSON.stringify of the options record: keys in insertion order
(`method`, `credentials`, `headers`, `body`), `undefined` fields skipped. -/
def encodeOptions (o : FetchOptions) : String :=
  "\x7b\"method\":" ++ jsonQuote o.method ++ ",\"credentials\":" ++ jsonQuote o.credentials ++
    (match o.headers with
     | some hs => ",\"headers\":" ++ encodeHeaders hs
     | none => "") ++
    (match o.body with
     | some b => ",\"body\":" ++ jsonQuote b
     | none => "") ++
  "\x7d"

/-- src/proxy.ts debuggerFetch's expression construction:
`PAYLOAD.replace("{{URL}}", url.href).replace("{{OPTIONS_JSON}}", JSON.stringify(fetchOptions))`. -/
def renderExpression (href optionsJson : String) : String :=
  replaceFirstStr (replaceFirstStr PAYLOAD urlMarker href) optionsMarker optionsJson

/-- Modelled from the spec: the template with the URL substituted exactly at
the `{{URL}}` marker's point and the JSON-encoded options exactly at the
`{{OPTIONS_JSON}}` marker's point. -/
def specSubstitution (href optionsJson : String) : String :=
  ⟨payloadPre.data ++ (href.data ++ (payloadMid.data ++ (optionsJson.data ++ payloadPost.data)))⟩

/-! ## The target registry (src/proxy.ts, `targets` / `loadTargets` / `getTarget`) -/

/-- src/proxy.ts `BrowserTarget`. -/
structure BrowserTarget where
  targetId : String
  sessionId : Option String
deriving DecidableEq

/-- The registry object `this.targets`, a JS object keyed by host, modelled
as its entry list (keys distinct, `in`/lookup by key equality). -/
abbrev Targets := List (String × BrowserTarget)

/-- JS property assignment `obj[k] = v`: replace the value under an existing
key, else append the entry. -/
def setKey : Targets → String → BrowserTarget → Targets
  | [], k, v => [(k, v)]
  | (k', v') :: rest, k, v =>
      if k' == k then (k, v) :: rest else (k', v') :: setKey rest k v

/-- JS falsiness of `target.sessionId` (string or undefined): `undefined`
and the empty string are falsy. -/
def jsFalsyOptStr : Option String → Bool
  | none => true
  | some s => s == ""

/-- The debugger-protocol calls and handler-level actions a computation
issues, in order. -/
inductive Event where
  | createTarget (url : String)
  | attachToTarget (targetId : String)
  | filteredHeaders
  | evaluate (sessionId : String) (expression : String)
deriving DecidableEq

/-- The browser's reply to the payload: the resolved
`{status, statusText, headers, body}` value, body as a byte-value list. -/
structure FetchResult where
  status : Nat
  statusText : String
  headers : List (String × String)
  body : List Nat
deriving DecidableEq

/-- The `result` of `Runtime.evaluate`: an error-flagged result has subtype
`"error"` and a browser-supplied description. -/
structure EvalResult where
  subtype : Option String
  description : Option String
  value : FetchResult
deriving DecidableEq

/-- The remote-debugging collaborator: what `Target.createTarget`,
`Target.attachToTarget` and `Runtime.evaluate` reply. -/
structure DebuggerEnv where
  createTargetId : String → String
  attachSession : String → String
  evaluate : String → String → EvalResult

structure TargetOutcome where
  target : BrowserTarget
  targets : Targets
  events : List Event

/-- src/proxy.ts `getTarget`: reuse the entry cached under `url.host`, else
create a tab navigated to `url.href` (the fixed settle delay is outside the
model); then, when the cached `sessionId` is missing (falsy), attach a
session with flattened routing and cache the result under `url.host`. -/
def getTarget (env : DebuggerEnv) (ts : Targets) (url : UrlModel) : TargetOutcome :=
  let found := List.lookup url.host ts
  let target : BrowserTarget :=
    match found with
    | some t => t
    | none => { targetId := env.createTargetId url.href, sessionId := none }
  let evs : List Event :=
    match found with
    | some _ => []
    | none => [.createTarget url.href]
  if jsFalsyOptStr target.sessionId then
    let sessionId := env.attachSession target.targetId
    let target2 : BrowserTarget := { target with sessionId := some sessionId }
    { target := target2, targets := setKey ts url.host target2,
      events := evs ++ [.attachToTarget target.targetId] }
  else
    { target := target, targets := ts, events := evs }

/-- One element of `Target.getTargets().targetInfos`. -/
structure TargetInfo where
  targetId : String
  url : String
deriving DecidableEq

/-- JS `Array.prototype.map` whose callback may throw: the first throw
aborts the whole computation. -/
def mapOrFail (f : TargetInfo → Option (String × BrowserTarget)) :
    List TargetInfo → Option (List (String × BrowserTarget))
  | [] => some []
  | i :: is =>
    match f i, mapOrFail f is with
    | some p, some ps => some (p :: ps)
    | _, _ => none

/-- `Object.fromEntries`: build an object from the pairs in order, a later
duplicate key overwriting the earlier value. -/
def fromEntries (l : List (String × BrowserTarget)) : Targets :=
  l.foldl (fun m p => setKey m p.1 p.2) []

/-- src/proxy.ts `loadTargets`: keep the open tabs whose URL starts with
`https://`, map each to `(parseURL(url).host, { targetId })` (a parse failure
rejects the whole reload), and replace the registry with the resulting
object. Every fresh entry has no `sessionId`. -/
def loadTargets (infos : List TargetInfo) : Option Targets :=
  (mapOrFail
      (fun i => (parseURL i.url).map fun u =>
        (u.host, ({ targetId := i.targetId, sessionId := none } : BrowserTarget)))
      (infos.filter fun i => strStartsWith i.url "https://")).map fromEntries

/-! ## debuggerFetch and the request handler (src/proxy.ts) -/

structure FetchOutcome where
  result : Except String FetchResult
  targets : Targets
  events : List Event

/-- src/proxy.ts `debuggerFetch`: resolve the target and session, build the
options (forcing `credentials: "include"`), render the payload expression,
evaluate it in the session (awaiting the promise, returning by value), and
classify: an error-flagged result throws
`Error("An error has occured during payload execution: " + description)`
(carried here as its `String(err)` form); otherwise the resolved value is
returned verbatim. -/
def debuggerFetch (env : DebuggerEnv) (ts : Targets) (method : String) (url : UrlModel)
    (headers : Option (List (String × HVal))) (body : Option String) : FetchOutcome :=
  let g := getTarget env ts url
  let sessionId := g.target.sessionId.getD ""
  let fetchOptions := mkFetchOptions method headers body
  let expression := renderExpression url.href (encodeOptions fetchOptions)
  let res := env.evaluate sessionId expression
  { result :=
      if res.subtype == some "error" then
        .error ("Error: An error has occured during payload execution: " ++
          res.description.getD "undefined")
      else .ok res.value,
    targets := g.targets,
    events := g.events ++ [.evaluate sessionId expression] }

/-- One intercepted request, as the proxy listener hands it over
(`request.body.getText()` yields a string, empty for an empty body). -/
structure Request where
  method : String
  url : String
  headers : List (String × HVal)
  bodyText : String
deriving DecidableEq

/-- What the handler returns to the proxy listener: the redirect object
`{statusCode: 302, headers: {location}}`, the success object
`{statusCode, statusMessage, headers, body}`, or the failure object
`{status: 500, body: String(err)}`. -/
inductive HandlerResponse where
  | redirect (location : String)
  | success (statusCode : Nat) (statusMessage : String)
      (headers : List (String × String)) (body : List Nat)
  | failure (body : String)
deriving DecidableEq

/-- The effective HTTP status of a handler response. -/
def HandlerResponse.statusOf : HandlerResponse → Nat
  | .redirect _ => 302
  | .success sc _ _ _ => sc
  | .failure _ => 500

/-- The response headers of a handler response. -/
def HandlerResponse.headersOf : HandlerResponse → List (String × String)
  | .redirect l => [("location", l)]
  | .success _ _ hs _ => hs
  | .failure _ => []

/-- The textual body of a failure response. -/
def HandlerResponse.failureBody : HandlerResponse → Option String
  | .failure b => some b
  | _ => none

/-- The handler's outcome: `response = .error e` models an exception (of
`String(err)` form `e`) escaping `proxyHandler` to the proxy listener;
`.ok r` models the handler returning `r`. -/
structure HandlerOutput where
  response : Except String HandlerResponse
  targets : Targets
  events : List Event

/-- src/proxy.ts `proxyHandler`: parse the URL (a failure throws BEFORE the
try block and escapes the handler), force the `https` scheme, answer 302
with the normalized location when the serialized URL differs from the
request's URL string; otherwise filter headers, read the body, and dispatch
through `debuggerFetch` inside the try block, turning a caught error into
`{status: 500, body: String(err)}`. -/
def proxyHandler (env : DebuggerEnv) (ts : Targets) (request : Request) : HandlerOutput :=
  match parseURL request.url with
  | none =>
    { response := .error ("Error: Failed to parse url: " ++ request.url),
      targets := ts, events := [] }
  | some parsed =>
    let url := setProtocolHttps parsed
    if url.href ≠ request.url then
      { response := .ok (.redirect url.href), targets := ts, events := [] }
    else
      let headers := filterHeaders request.headers
      let d := debuggerFetch env ts request.method url (some headers) (some request.bodyText)
      match d.result with
      | .ok r =>
        { response := .ok (.success r.status r.statusText r.headers r.body),
          targets := d.targets, events := .filteredHeaders :: d.events }
      | .error e =>
        { response := .ok (.failure e),
          targets := d.targets, events := .filteredHeaders :: d.events }

/-- The evaluation result `debuggerFetch` consults: the environment's reply
to evaluating the rendered expression in the resolved session. -/
def evalOf (env : DebuggerEnv) (ts : Targets) (method : String) (u : UrlModel)
    (headers : Option (List (String × HVal))) (body : Option String) : EvalResult :=
  env.evaluate ((getTarget env ts u).target.sessionId.getD "")
    (renderExpression u.href (encodeOptions (mkFetchOptions method headers body)))

/-- The evaluation result consulted when `proxyHandler` dispatches `req` to
the normalized URL `u`. -/
def dispatchEval (env : DebuggerEnv) (ts : Targets) (req : Request) (u : UrlModel) : EvalResult :=
  evalOf env ts req.method u (some (filterHeaders req.headers)) (some req.bodyText)

theorem debuggerFetch_result_error {env : DebuggerEnv} {ts : Targets} {method : String}
    {u : UrlModel} {headers : Option (List (String × HVal))} {body : Option String}
    (h : (evalOf env ts method u headers body).subtype = some "error") :
    (debuggerFetch env ts method u headers body).result =
      .error ("Error: An error has occured during payload execution: " ++
        (evalOf env ts method u headers body).description.getD "undefined") := by
  unfold evalOf at h ⊢
  simp [debuggerFetch, h]

theorem debuggerFetch_result_ok {env : DebuggerEnv} {ts : Targets} {method : String}
    {u : UrlModel} {headers : Option (List (String × HVal))} {body : Option String}
    (h : (evalOf env ts method u headers body).subtype ≠ some "error") :
    (debuggerFetch env ts method u headers body).result =
      .ok (evalOf env ts method u headers body).value := by
  unfold evalOf at h ⊢
  have hb : ((env.evaluate ((getTarget env ts u).target.sessionId.getD "")
      (renderExpression u.href (encodeOptions (mkFetchOptions method headers body)))).subtype ==
        some "error") = false := beq_eq_false_iff_ne.mpr h
  simp [debuggerFetch, hb]

theorem proxyHandler_dispatch_error {env : DebuggerEnv} {ts : Targets} {req : Request}
    {u0 : UrlModel}
    (h1 : parseURL req.url = some u0)
    (h2 : (setProtocolHttps u0).href = req.url)
    (h3 : (dispatchEval env ts req (setProtocolHttps u0)).subtype = some "error") :
    proxyHandler env ts req =
      { response := .ok (.failure ("Error: An error has occured during payload execution: " ++
          (dispatchEval env ts req (setProtocolHttps u0)).description.getD "undefined")),
        targets := (getTarget env ts (setProtocolHttps u0)).targets,
        events := Event.filteredHeaders ::
          ((getTarget env ts (setProtocolHttps u0)).events ++
            [Event.evaluate ((getTarget env ts (setProtocolHttps u0)).target.sessionId.getD "")
              (renderExpression (setProtocolHttps u0).href
                (encodeOptions (mkFetchOptions req.method (some (filterHeaders req.headers))
                  (some req.bodyText))))]) } := by
  have hne : ¬ ((setProtocolHttps u0).href ≠ req.url) := fun hc => hc h2
  have h3' : (evalOf env ts req.method (setProtocolHttps u0) (some (filterHeaders req.headers))
      (some req.bodyText)).subtype = some "error" := h3
  have hd := debuggerFetch_result_error h3'
  simp only [proxyHandler, h1]
  rw [if_neg hne, hd]
  rfl

theorem proxyHandler_dispatch_ok {env : DebuggerEnv} {ts : Targets} {req : Request}
    {u0 : UrlModel}
    (h1 : parseURL req.url = some u0)
    (h2 : (setProtocolHttps u0).href = req.url)
    (h3 : ¬ (dispatchEval env ts req (setProtocolHttps u0)).subtype = some "error") :
    proxyHandler env ts req =
      { response := .ok (.success
          (dispatchEval env ts req (setProtocolHttps u0)).value.status
          (dispatchEval env ts req (setProtocolHttps u0)).value.statusText
          (dispatchEval env ts req (setProtocolHttps u0)).value.headers
          (dispatchEval env ts req (setProtocolHttps u0)).value.body),
        targets := (getTarget env ts (setProtocolHttps u0)).targets,
        events := Event.filteredHeaders ::
          ((getTarget env ts (setProtocolHttps u0)).events ++
            [Event.evaluate ((getTarget env ts (setProtocolHttps u0)).target.sessionId.getD "")
              (renderExpression (setProtocolHttps u0).href
                (encodeOptions (mkFetchOptions req.method (some (filterHeaders req.headers))
                  (some req.bodyText))))]) } := by
  have hne : ¬ ((setProtocolHttps u0).href ≠ req.url) := fun hc => hc h2
  have h3' : (evalOf env ts req.method (setProtocolHttps u0) (some (filterHeaders req.headers))
      (some req.bodyText)).subtype ≠ some "error" := h3
  have hd := debuggerFetch_result_ok h3'
  simp only [proxyHandler, h1]
  rw [if_neg hne, hd]
  rfl

/-! ## Registry helper lemmas -/

theorem lookup_setKey_self : ∀ (ts : Targets) (k : String) (v : BrowserTarget),
    List.lookup k (setKey ts k v) = some v := by
  intro ts k v
  induction ts with
  | nil => simp [setKey, List.lookup]
  | cons e rest ih =>
    obtain ⟨k', v'⟩ := e
    cases h : (k' == k) with
    | true => simp [setKey, h, List.lookup]
    | false =>
      have hne : (k == k') = false := by
        rw [beq_eq_false_iff_ne] at h ⊢
        exact fun he => h he.symm
      simp [setKey, h, List.lookup, hne, ih]

theorem mem_setKey : ∀ {ts : Targets} {k : String} {v p},
    p ∈ setKey ts k v → p ∈ ts ∨ p = (k, v) := by
  intro ts
  induction ts with
  | nil => intro k v p h; simp [setKey] at h; right; exact h
  | cons e rest ih =>
    intro k v p h
    obtain ⟨k', v'⟩ := e
    cases he : (k' == k) with
    | true =>
      simp only [setKey, he, if_true] at h
      rcases List.mem_cons.mp h with h1 | h1
      · right; exact h1
      · left; exact List.mem_cons_of_mem _ h1
    | false =>
      simp only [setKey, he, Bool.false_eq_true, if_false] at h
      rcases List.mem_cons.mp h with h1 | h1
      · left; exact h1 ▸ List.mem_cons_self _ _
      · rcases ih h1 with h2 | h2
        · left; exact List.mem_cons_of_mem _ h2
        · right; exact h2

theorem lookup_mem : ∀ {ts : Targets} {k : String} {v},
    List.lookup k ts = some v → (k, v) ∈ ts := by
  intro ts
  induction ts with
  | nil => intro k v h; simp [List.lookup] at h
  | cons e rest ih =>
    intro k v h
    obtain ⟨k', v'⟩ := e
    cases he : (k == k') with
    | true =>
      simp only [List.lookup, he, Option.some.injEq] at h
      have hk : k = k' := by simpa using he
      exact hk ▸ h ▸ List.mem_cons_self _ _
    | false =>
      simp only [List.lookup, he] at h
      exact List.mem_cons_of_mem _ (ih h)

theorem foldl_setKey_pred (P : BrowserTarget → Prop) :
    ∀ (l : List (String × BrowserTarget)) (acc : Targets),
      (∀ p ∈ acc, P p.2) → (∀ q ∈ l, P q.2) →
      ∀ p ∈ l.foldl (fun m q => setKey m q.1 q.2) acc, P p.2 := by
  intro l
  induction l with
  | nil => intro acc ha _ p hp; exact ha p hp
  | cons q qs ih =>
    intro acc ha hl p hp
    refine ih (setKey acc q.1 q.2) ?_ (fun r hr => hl r (List.mem_cons_of_mem _ hr)) p hp
    intro r hr
    rcases mem_setKey hr with h1 | h1
    · exact ha r h1
    · rw [h1]; exact hl q (List.mem_cons_self _ _)

theorem mapOrFail_mem {f : TargetInfo → Option (String × BrowserTarget)} :
    ∀ {is : List TargetInfo} {l}, mapOrFail f is = some l →
      ∀ q ∈ l, ∃ i, f i = some q := by
  intro is
  induction is with
  | nil =>
    intro l h q hq
    simp only [mapOrFail, Option.some.injEq] at h
    rw [← h] at hq
    exact absurd hq (List.not_mem_nil q)
  | cons i is' ih =>
    intro l h q hq
    simp only [mapOrFail] at h
    cases hf : f i with
    | none => rw [hf] at h; exact absurd h (by simp)
    | some p =>
      rw [hf] at h
      cases hm : mapOrFail f is' with
      | none => rw [hm] at h; exact absurd h (by simp)
      | some ps =>
        rw [hm] at h
        simp only [Option.some.injEq] at h
        rw [← h] at hq
        rcases List.mem_cons.mp hq with h1 | h1
        · exact ⟨i, h1 ▸ hf⟩
        · exact ih hm q h1

theorem loadTargets_sessionId_none {infos : List TargetInfo} {ts' : Targets}
    (h : loadTargets infos = some ts') : ∀ p ∈ ts', p.2.sessionId = none := by
  unfold loadTargets at h
  cases hm : mapOrFail
      (fun i => (parseURL i.url).map fun u =>
        (u.host, ({ targetId := i.targetId, sessionId := none } : BrowserTarget)))
      (infos.filter fun i => strStartsWith i.url "https://") with
  | none => rw [hm] at h; exact absurd h (by simp)
  | some l =>
    rw [hm] at h
    have h' : fromEntries l = ts' := by simpa using h
    have hl : ∀ q ∈ l, q.2.sessionId = none := by
      intro q hq
      obtain ⟨i, hi⟩ := mapOrFail_mem hm q hq
      cases hp : parseURL i.url with
      | none => rw [hp] at hi; exact absurd hi (by simp)
      | some u =>
        rw [hp] at hi
        have hi' : (u.host, ({ targetId := i.targetId, sessionId := none } : BrowserTarget)) = q := by
          simpa using hi
        rw [← hi']
    rw [← h']
    exact foldl_setKey_pred (fun t => t.sessionId = none) l [] (by simp) hl

/-! ## Concrete witnesses' environments and inputs -/

/-- A debugger environment replying fixed identifiers and a plain success. -/
def envA : DebuggerEnv :=
  { createTargetId := fun _ => "T1",
    attachSession := fun _ => "S1",
    evaluate := fun _ _ =>
      { subtype := none, description := none,
        value := { status := 200, statusText := "OK",
                   headers := [("content-type", "text/html")], body := [72, 105] } } }

/-- A debugger environment whose evaluation replies an error-flagged result
with the DNS failure description. -/
def envErr : DebuggerEnv :=
  { createTargetId := fun _ => "T1",
    attachSession := fun _ => "S1",
    evaluate := fun _ _ =>
      { subtype := some "error", description := some "net::ERR_NAME_NOT_RESOLVED",
        value := { status := 0, statusText := "", headers := [], body := [] } } }

def urlA : UrlModel := { scheme := "https", host := "a.example", rest := "/" }

/-- A dispatched request to `urlA` (already https, canonical form). -/
def reqA : Request :=
  { method := "GET", url := "https://a.example/", headers := [], bodyText := "" }

/-- A request whose URL `URL.parse` cannot parse. -/
def reqBad : Request := { method := "GET", url := "notaurl", headers := [], bodyText := "" }

/-! ## The claims -/

/-- C1: for a previously unseen host, the first `getTarget` returns a Target
with the created `targetId` and an attached `sessionId`, caches it under the
host, and issues exactly one `Target.createTarget` and one
`Target.attachToTarget`; a second `getTarget` for the same host (before any
reload) returns the identical Target — same `sessionId` — leaves the
registry unchanged, and issues no creation and no attachment call. -/
theorem getTarget_first_resolve_caches (env : DebuggerEnv) (ts : Targets) (u : UrlModel)
    (h1 : List.lookup u.host ts = none)
    (h2 : env.attachSession (env.createTargetId u.href) ≠ "") :
    (getTarget env ts u).target.targetId = env.createTargetId u.href ∧
    (getTarget env ts u).target.sessionId =
      some (env.attachSession (env.createTargetId u.href)) ∧
    (getTarget env ts u).events =
      [Event.createTarget u.href, Event.attachToTarget (env.createTargetId u.href)] ∧
    List.lookup u.host (getTarget env ts u).targets = some (getTarget env ts u).target ∧
    getTarget env (getTarget env ts u).targets u =
      { target := (getTarget env ts u).target,
        targets := (getTarget env ts u).targets, events := [] } := by
  have hsid : (env.attachSession (env.createTargetId u.href) == "") = false :=
    beq_eq_false_iff_ne.mpr h2
  have e1 : getTarget env ts u =
      { target := { targetId := env.createTargetId u.href,
                    sessionId := some (env.attachSession (env.createTargetId u.href)) },
        targets := setKey ts u.host
          { targetId := env.createTargetId u.href,
            sessionId := some (env.attachSession (env.createTargetId u.href)) },
        events := [Event.createTarget u.href,
                   Event.attachToTarget (env.createTargetId u.href)] } := by
    simp [getTarget, h1, jsFalsyOptStr]
  rw [e1]
  refine ⟨rfl, rfl, rfl, lookup_setKey_self ts u.host _, ?_⟩
  simp [getTarget, lookup_setKey_self, jsFalsyOptStr, hsid]

/-- C1 witness: the guarantees at a concrete unseen host. -/
theorem getTarget_first_resolve_caches_witness :
    (getTarget envA [] urlA).target.targetId = envA.createTargetId urlA.href ∧
    (getTarget envA [] urlA).target.sessionId =
      some (envA.attachSession (envA.createTargetId urlA.href)) ∧
    (getTarget envA [] urlA).events =
      [Event.createTarget urlA.href, Event.attachToTarget (envA.createTargetId urlA.href)] ∧
    List.lookup urlA.host (getTarget envA [] urlA).targets =
      some (getTarget envA [] urlA).target ∧
    getTarget envA (getTarget envA [] urlA).targets urlA =
      { target := (getTarget envA [] urlA).target,
        targets := (getTarget envA [] urlA).targets, events := [] } :=
  getTarget_first_resolve_caches envA [] urlA rfl (by decide)

/-- C9: normalization (forcing the `https` scheme) maps
`http://example.com/x` to `https://example.com/x`, leaves a URL whose scheme
is already `https` unchanged, and is idempotent. -/
theorem normalization_scheme_forcing_idempotent :
    ((parseURL "http://example.com/x").map fun u => (setProtocolHttps u).href) =
      some "https://example.com/x" ∧
    (∀ u : UrlModel, u.scheme = "https" → setProtocolHttps u = u) ∧
    (∀ u : UrlModel, setProtocolHttps (setProtocolHttps u) = setProtocolHttps u) := by
  refine ⟨by decide, ?_, fun u => rfl⟩
  intro u h
  cases u with
  | mk s host rest => simp only [setProtocolHttps] at h ⊢; rw [← h]

/-- C3 counterexample: `filterHeaders` compares the header name exactly as
given, so the entry `("Cookie", "a")` — whose LOWERCASED name is in the
deny-list — is kept, while the spec's lowercased reading drops it. -/
theorem filterHeaders_keeps_uppercase_cookie :
    filterHeaders [("Cookie", HVal.str "a")] = [("Cookie", HVal.str "a")] ∧
    strToLower "Cookie" ∈ IGNORED_HEADERS ∧
    filterHeadersSpecLower [("Cookie", HVal.str "a")] = [] := by decide

/-- C3 (amended): `filterHeaders` returns exactly those entries whose value
is textual and whose name — compared case-sensitively, exactly as given —
neither matches a deny-list name nor starts with a deny-prefix; kept entries
are unchanged and in order (a sublist), empty input yields empty output, and
on inputs whose names are already lowercase it agrees with the spec's
lowercased reading. -/
theorem filterHeaders_characterization :
    (∀ (hs : List (String × HVal)) (e : String × HVal),
        e ∈ filterHeaders hs ↔
          e ∈ hs ∧ isStringVal e.2 = true ∧ e.1 ∉ IGNORED_HEADERS ∧
            ∀ p ∈ IGNORED_HEADER_PREFIXES, strStartsWith e.1 p = false) ∧
    (∀ hs : List (String × HVal), (filterHeaders hs).Sublist hs) ∧
    filterHeaders [] = [] ∧
    (∀ hs : List (String × HVal), (∀ e ∈ hs, strToLower e.1 = e.1) →
        filterHeaders hs = filterHeadersSpecLower hs) := by
  refine ⟨?_, fun hs => List.filter_sublist hs, rfl, ?_⟩
  · intro hs e
    simp [filterHeaders, List.mem_filter, and_assoc]
  · intro hs h
    unfold filterHeaders filterHeadersSpecLower
    refine List.filter_congr ?_
    intro e he
    rw [h e he]

/-- C7: the fetch options are always built with `credentials = "include"`,
whatever the method, headers and body; and the dispatch path always
evaluates the expression rendered from exactly those options, so the forced
credential inclusion is never overridden or omitted. -/
theorem fetchOptions_credentials_include :
    (∀ (method : String) (headers : Option (List (String × HVal))) (body : Option String),
      (mkFetchOptions method headers body).credentials = "include") ∧
    (∀ (env : DebuggerEnv) (ts : Targets) (method : String) (u : UrlModel)
        (headers : Option (List (String × HVal))) (body : Option String),
      (debuggerFetch env ts method u headers body).events =
        (getTarget env ts u).events ++
          [Event.evaluate ((getTarget env ts u).target.sessionId.getD "")
            (renderExpression u.href (encodeOptions (mkFetchOptions method headers body)))]) :=
  ⟨fun _ _ _ => rfl, fun _ _ _ _ _ _ => rfl⟩

/-- C4: a request whose URL changes under normalization (forcing the https
scheme) is answered with 302 and a `location` header holding the normalized
URL; the registry is untouched and no event (no header filtering, no
protocol call, no evaluation) occurs. In particular `GET http://a.example/`
yields 302 with location `https://a.example/`. -/
theorem proxyHandler_redirects_changed_url (env : DebuggerEnv) (ts : Targets)
    (req : Request) (u0 : UrlModel)
    (h1 : parseURL req.url = some u0)
    (h2 : (setProtocolHttps u0).href ≠ req.url) :
    proxyHandler env ts req =
      { response := .ok (.redirect (setProtocolHttps u0).href),
        targets := ts, events := [] } ∧
    (HandlerResponse.redirect (setProtocolHttps u0).href).statusOf = 302 ∧
    (HandlerResponse.redirect (setProtocolHttps u0).href).headersOf =
      [("location", (setProtocolHttps u0).href)] ∧
    (proxyHandler env ts
        { method := "GET", url := "http://a.example/", headers := [], bodyText := "" }).response =
      .ok (.redirect "https://a.example/") := by
  refine ⟨?_, rfl, rfl, ?_⟩
  · simp [proxyHandler, h1, h2]
  · have hp : parseURL "http://a.example/" =
        some { scheme := "http", host := "a.example", rest := "/" } := by decide
    have hne : (setProtocolHttps { scheme := "http", host := "a.example", rest := "/" }).href ≠
        "http://a.example/" := by decide
    simp [proxyHandler, hp, hne]
    decide

/-- C4 witness: the redirect behaviour at a concrete changed URL. -/
theorem proxyHandler_redirects_changed_url_witness :
    proxyHandler envA []
        { method := "GET", url := "http://a.example/", headers := [], bodyText := "" } =
      { response := .ok (.redirect
          (setProtocolHttps { scheme := "http", host := "a.example", rest := "/" }).href),
        targets := [], events := [] } ∧
    (HandlerResponse.redirect
        (setProtocolHttps { scheme := "http", host := "a.example", rest := "/" }).href).statusOf = 302 ∧
    (HandlerResponse.redirect
        (setProtocolHttps { scheme := "http", host := "a.example", rest := "/" }).href).headersOf =
      [("location", (setProtocolHttps { scheme := "http", host := "a.example", rest := "/" }).href)] ∧
    (proxyHandler envA []
        { method := "GET", url := "http://a.example/", headers := [], bodyText := "" }).response =
      .ok (.redirect "https://a.example/") :=
  proxyHandler_redirects_changed_url envA []
    { method := "GET", url := "http://a.example/", headers := [], bodyText := "" }
    { scheme := "http", host := "a.example", rest := "/" } (by decide) (by decide)

/-- C5: `loadTargets` replaces the whole registry with a fresh snapshot in
which every entry's `sessionId` is unset — the old registry (with its cached
sessions) plays no part — so a host that had a cached session before the
reload re-attaches on its next resolve: `getTarget` issues a new
`Target.attachToTarget` and returns the freshly attached session. -/
theorem loadTargets_fresh_snapshot_reattach (infos : List TargetInfo)
    (ts' oldTs : Targets) (env : DebuggerEnv) (u : UrlModel)
    (t told : BrowserTarget) (s : String)
    (_hOld : List.lookup u.host oldTs = some told)
    (_hOldSess : told.sessionId = some s)
    (h1 : loadTargets infos = some ts')
    (h2 : List.lookup u.host ts' = some t) :
    (∀ p ∈ ts', p.2.sessionId = none) ∧
    t.sessionId = none ∧
    getTarget env ts' u =
      { target := { targetId := t.targetId,
                    sessionId := some (env.attachSession t.targetId) },
        targets := setKey ts' u.host
          { targetId := t.targetId, sessionId := some (env.attachSession t.targetId) },
        events := [Event.attachToTarget t.targetId] } := by
  have hall := loadTargets_sessionId_none h1
  have ht : t.sessionId = none := hall (u.host, t) (lookup_mem h2)
  refine ⟨hall, ht, ?_⟩
  simp [getTarget, h2, ht, jsFalsyOptStr]

/-- C2 counterexample: at the malformed URL `notaurl` the handler does not
return an HTTP 500 response with body `String(err)`: the parse error is
thrown before the try block and escapes the handler as a raised error. -/
theorem proxyHandler_parse_failure_escapes :
    (proxyHandler envA [] reqBad).response = .error "Error: Failed to parse url: notaurl" ∧
    (proxyHandler envA [] reqBad).response ≠
      Except.ok (HandlerResponse.failure "Error: Failed to parse url: notaurl") := by
  refine ⟨rfl, ?_⟩
  intro h
  exact Except.noConfusion h

/-- C2 (amended): every failure raised inside the handler's try block — in
this model an error-flagged evaluation — terminates the request with an
HTTP 500 response whose body is the error's `String(err)` form; a URL parse
failure is instead raised out of the handler (the parse error, in its
`String(err)` form, propagates to the proxy listener) and is not converted
into a 500 response by the handler itself. Either way no error is silently
swallowed. -/
theorem proxyHandler_error_responses (env : DebuggerEnv) (ts : Targets) (req : Request)
    (u0 : UrlModel)
    (h1 : parseURL req.url = some u0)
    (h2 : (setProtocolHttps u0).href = req.url)
    (h3 : (dispatchEval env ts req (setProtocolHttps u0)).subtype = some "error") :
    (proxyHandler env ts req).response =
      .ok (.failure ("Error: An error has occured during payload execution: " ++
        (dispatchEval env ts req (setProtocolHttps u0)).description.getD "undefined")) ∧
    (∀ b, (HandlerResponse.failure b).statusOf = 500) ∧
    (∀ req' : Request, parseURL req'.url = none →
      (proxyHandler env ts req').response =
        .error ("Error: Failed to parse url: " ++ req'.url)) := by
  refine ⟨?_, fun b => rfl, ?_⟩
  · rw [proxyHandler_dispatch_error h1 h2 h3]
  · intro req' hp
    simp [proxyHandler, hp]

/-- C2 witness: a dispatch failure answered 500 at a concrete request. -/
theorem proxyHandler_error_responses_witness :
    (proxyHandler envErr [] reqA).response =
      .ok (.failure ("Error: An error has occured during payload execution: " ++
        (dispatchEval envErr [] reqA (setProtocolHttps urlA)).description.getD "undefined")) :=
  (proxyHandler_error_responses envErr [] reqA urlA (by decide) (by decide) rfl).1

/-- C6: `debuggerFetch` produces the execution error — carrying the
browser-supplied description — exactly when the evaluation result is
error-flagged (`subtype = "error"`), and otherwise returns the resolved
value verbatim; an error-flagged result with description
`net::ERR_NAME_NOT_RESOLVED` makes the handler answer status 500 with that
text contained in the body. -/
theorem debuggerFetch_error_classification (env : DebuggerEnv) (ts : Targets)
    (req : Request) (u0 : UrlModel)
    (h1 : parseURL req.url = some u0)
    (h2 : (setProtocolHttps u0).href = req.url)
    (h3 : (dispatchEval env ts req (setProtocolHttps u0)).subtype = some "error")
    (h4 : (dispatchEval env ts req (setProtocolHttps u0)).description =
      some "net::ERR_NAME_NOT_RESOLVED") :
    (∀ (method : String) (u : UrlModel) (headers : Option (List (String × HVal)))
        (body : Option String),
      ((debuggerFetch env ts method u headers body).result =
          .error ("Error: An error has occured during payload execution: " ++
            (evalOf env ts method u headers body).description.getD "undefined") ↔
        (evalOf env ts method u headers body).subtype = some "error") ∧
      ((evalOf env ts method u headers body).subtype ≠ some "error" →
        (debuggerFetch env ts method u headers body).result =
          .ok (evalOf env ts method u headers body).value)) ∧
    (proxyHandler env ts req).response =
      .ok (.failure
        "Error: An error has occured during payload execution: net::ERR_NAME_NOT_RESOLVED") ∧
    (HandlerResponse.failure
        "Error: An error has occured during payload execution: net::ERR_NAME_NOT_RESOLVED").statusOf
      = 500 ∧
    containsSeq "net::ERR_NAME_NOT_RESOLVED".data
      "Error: An error has occured during payload execution: net::ERR_NAME_NOT_RESOLVED".data
      = true := by
  refine ⟨?_, ?_, rfl, by decide⟩
  · intro method u headers body
    refine ⟨⟨?_, fun hs => debuggerFetch_result_error hs⟩, fun hne => debuggerFetch_result_ok hne⟩
    intro he
    by_contra hne
    have hok := debuggerFetch_result_ok hne
    rw [hok] at he
    exact Except.noConfusion he
  · rw [proxyHandler_dispatch_error h1 h2 h3]
    simp [h4]

/-- C6 witness: the classification at a concrete error-flagged dispatch. -/
theorem debuggerFetch_error_classification_witness :
    (proxyHandler envErr [] reqA).response =
      .ok (.failure
        "Error: An error has occured during payload execution: net::ERR_NAME_NOT_RESOLVED") :=
  (debuggerFetch_error_classification envErr [] reqA urlA
    (by decide) (by decide) rfl rfl).2.1

/-- C10: a body reading as the empty string is coerced to an absent body
before dispatch — `mkFetchOptions` on `""` equals `mkFetchOptions` on no
body, with the body field unset — and the handler of an empty-bodied
request evaluates the expression whose encoded options carry no body
field. -/
theorem emptyBody_options_absent (env : DebuggerEnv) (ts : Targets) (req : Request)
    (u0 : UrlModel)
    (h1 : parseURL req.url = some u0)
    (h2 : (setProtocolHttps u0).href = req.url)
    (h3 : req.bodyText = "") :
    (∀ (method : String) (headers : Option (List (String × HVal))),
      mkFetchOptions method headers (some "") = mkFetchOptions method headers none ∧
      (mkFetchOptions method headers (some "")).body = none) ∧
    (proxyHandler env ts req).events =
      Event.filteredHeaders :: ((getTarget env ts (setProtocolHttps u0)).events ++
        [Event.evaluate ((getTarget env ts (setProtocolHttps u0)).target.sessionId.getD "")
          (renderExpression (setProtocolHttps u0).href
            (encodeOptions (mkFetchOptions req.method
              (some (filterHeaders req.headers)) none)))]) := by
  have hmk : ∀ (method : String) (headers : Option (List (String × HVal))),
      mkFetchOptions method headers (some "") = mkFetchOptions method headers none ∧
      (mkFetchOptions method headers (some "")).body = none := by
    intro method headers
    constructor <;> simp [mkFetchOptions]
  refine ⟨hmk, ?_⟩
  rcases Decidable.em ((dispatchEval env ts req (setProtocolHttps u0)).subtype = some "error")
    with he | he
  · rw [proxyHandler_dispatch_error h1 h2 he, h3, (hmk req.method _).1]
  · rw [proxyHandler_dispatch_ok h1 h2 he, h3, (hmk req.method _).1]

/-- C10 witness: the empty body's coercion at a concrete request. -/
theorem emptyBody_options_absent_witness :
    (proxyHandler envA [] reqA).events =
      Event.filteredHeaders :: ((getTarget envA [] (setProtocolHttps urlA)).events ++
        [Event.evaluate ((getTarget envA [] (setProtocolHttps urlA)).target.sessionId.getD "")
          (renderExpression (setProtocolHttps urlA).href
            (encodeOptions (mkFetchOptions reqA.method
              (some (filterHeaders reqA.headers)) none)))]) :=
  (emptyBody_options_absent envA [] reqA urlA (by decide) (by decide) rfl).2

/-- C5 witness: a concrete reload snapshot and the re-attachment after it. -/
theorem loadTargets_fresh_snapshot_reattach_witness :
    (∀ p ∈ [("a.example", ({ targetId := "T1", sessionId := none } : BrowserTarget))],
      (Prod.snd p).sessionId = none) ∧
    ({ targetId := "T1", sessionId := none } : BrowserTarget).sessionId = none ∧
    getTarget envA [("a.example", { targetId := "T1", sessionId := none })] urlA =
      { target := { targetId := "T1",
                    sessionId := some (envA.attachSession "T1") },
        targets := setKey [("a.example", { targetId := "T1", sessionId := none })] urlA.host
          { targetId := "T1", sessionId := some (envA.attachSession "T1") },
        events := [Event.attachToTarget "T1"] } :=
  loadTargets_fresh_snapshot_reattach
    [{ targetId := "T1", url := "https://a.example/" }]
    [("a.example", { targetId := "T1", sessionId := none })]
    [("a.example", { targetId := "T0", sessionId := some "S0" })]
    envA urlA
    { targetId := "T1", sessionId := none }
    { targetId := "T0", sessionId := some "S0" } "S0"
    (by decide) (by decide) (by decide) (by decide)

/-- A URL whose href contains the literal options marker: WHATWG
serialization preserves curly braces in the query component, so
`https://x.example/?{{OPTIONS_JSON}}` is its own href. -/
def urlInj : UrlModel :=
  { scheme := "https", host := "x.example", rest := "/?\x7b\x7bOPTIONS_JSON\x7d\x7d" }

set_option maxRecDepth 100000 in
/-- C8 counterexample: with an href containing the literal
`{{OPTIONS_JSON}}` marker, the first replacement plants a marker occurrence
before the template's designated slot, and the second (first-occurrence)
replacement substitutes the options there — inside the URL position — so
the rendered expression is not the designated substitution. -/
theorem renderExpression_marker_injection :
    renderExpression urlInj.href (encodeOptions (mkFetchOptions "GET" none none)) ≠
      specSubstitution urlInj.href (encodeOptions (mkFetchOptions "GET" none none)) := by
  decide

/-- C8 (amended): the expression submitted for evaluation equals the fixed
template with the URL's href at the `{{URL}}` marker's designated point and
the JSON-encoded options at the `{{OPTIONS_JSON}}` marker's designated
point, provided the href does not contain the literal `{{OPTIONS_JSON}}`
marker and neither the href nor the encoded options contain the replacement
metacharacter `$`. -/
theorem renderExpression_designated_substitution (u : UrlModel) (opts : FetchOptions)
    (h1 : containsSeq optionsMarker.data u.href.data = false)
    (h2 : dollarChar ∉ u.href.data)
    (h3 : dollarChar ∉ (encodeOptions opts).data) :
    renderExpression u.href (encodeOptions opts) =
      specSubstitution u.href (encodeOptions opts) := by
  have hM1ne : urlMarker.data ≠ [] := by decide
  have hM2ne : optionsMarker.data ≠ [] := by decide
  have d1 : noStartInB urlMarker.data payloadPre.data = true := by decide
  have d2 : noStartInB optionsMarker.data payloadPre.data = true := by decide
  have d3 : noStartInB optionsMarker.data payloadMid.data = true := by decide
  have d4 : ∀ k, k < optionsMarker.data.length → 0 < k →
      isPre (optionsMarker.data.drop k)
        (payloadMid.data ++ (optionsMarker.data ++ payloadPost.data)) = false := by decide
  have stepA : replaceFirst PAYLOAD.data urlMarker.data u.href.data =
      payloadPre.data ++ (u.href.data ++
        (payloadMid.data ++ (optionsMarker.data ++ payloadPost.data))) := by
    rw [payload_decomposition]
    exact replaceFirst_slot_clean hM1ne (noStartInB_sound d1 _) h2
  have hk : ∀ k, k < optionsMarker.data.length → 0 < k →
      isPre (optionsMarker.data.drop k)
        (payloadMid.data ++ (optionsMarker.data ++ payloadPost.data)) = false := d4
  have inner : noStartIn optionsMarker.data (u.href.data ++ payloadMid.data)
      (optionsMarker.data ++ payloadPost.data) :=
    noStartIn_append u.href.data
      (noStartIn_of_not_contains (fun k hlt hpos => hk k hlt hpos) h1)
      (noStartInB_sound d3 _)
  have outer : noStartIn optionsMarker.data
      (payloadPre.data ++ (u.href.data ++ payloadMid.data))
      (optionsMarker.data ++ payloadPost.data) :=
    noStartIn_append payloadPre.data (noStartInB_sound d2 _) inner
  have stepB : replaceFirst
      ((payloadPre.data ++ (u.href.data ++ payloadMid.data)) ++
        (optionsMarker.data ++ payloadPost.data))
      optionsMarker.data (encodeOptions opts).data =
      (payloadPre.data ++ (u.href.data ++ payloadMid.data)) ++
        ((encodeOptions opts).data ++ payloadPost.data) :=
    replaceFirst_slot_clean hM2ne outer h3
  show (⟨replaceFirst (replaceFirstStr PAYLOAD urlMarker u.href).data
      optionsMarker.data (encodeOptions opts).data⟩ : String) = _
  apply congrArg String.mk
  have hdata : (replaceFirstStr PAYLOAD urlMarker u.href).data =
      (payloadPre.data ++ (u.href.data ++ payloadMid.data)) ++
        (optionsMarker.data ++ payloadPost.data) := by
    show replaceFirst PAYLOAD.data urlMarker.data u.href.data = _
    rw [stepA]
    simp [List.append_assoc]
  rw [hdata, stepB]
  show _ = payloadPre.data ++ (u.href.data ++ (payloadMid.data ++
    ((encodeOptions opts).data ++ payloadPost.data)))
  simp [List.append_assoc]

/-- C8 witness: the designated substitution at a concrete clean URL. -/
theorem renderExpression_designated_substitution_witness :
    renderExpression urlA.href (encodeOptions (mkFetchOptions "GET" none none)) =
      specSubstitution urlA.href (encodeOptions (mkFetchOptions "GET" none none)) :=
  renderExpression_designated_substitution urlA (mkFetchOptions "GET" none none)
    (by decide) (by decide) (by decide)

end Chromxify
